import Mathlib

/-!
Verification of the price/news-sentiment pipeline
(`scripts/prepare_indicators.py` and `scripts/sentiment_analysis.py`)
against its natural-language specification.

Shallow embedding conventions:
* Prices and polarities are modelled as exact rationals (`ℚ`); the floating
  point of the source is exact on the operations involved except where a
  division can produce `inf`/`NaN`, and those places are modelled explicitly
  with `Option ℚ` (`none` = NaN / missing value).
* A pandas `Series`/column is a `List ℚ` (or an index-to-`Option ℚ` map for
  columns with missing values); dates already parsed to day granularity are
  `Int` day numbers, and an unparsed date cell is `Option Int` with `none`
  standing for `NaT`.
* A Python exception aborting a function is modelled by the function
  returning `none` at the frame level.
-/

/-! ### prepare_indicators.py : rsi_wilder -/

/-- `delta = series.diff()`: `delta[0]` is NaN, `delta[t] = x[t] - x[t-1]`.
Indices past the end of the series do not exist and are also `none`. -/
def seriesDiff (xs : List ℚ) (t : ℕ) : Option ℚ :=
  if t = 0 ∨ xs.length ≤ t then none
  else some (xs.getD t 0 - xs.getD (t - 1) 0)

/-- `gain = delta.clip(lower=0)`, i.e. `gain[t] = max(delta[t], 0)`;
NaN stays NaN. -/
def gainF (xs : List ℚ) (t : ℕ) : Option ℚ :=
  (seriesDiff xs t).map (fun d => max d 0)

/-- `loss = -delta.clip(upper=0)`, i.e. `loss[t] = max(-delta[t], 0)`;
NaN stays NaN. -/
def lossF (xs : List ℚ) (t : ℕ) : Option ℚ :=
  (seriesDiff xs t).map (fun d => max (-d) 0)

/-- `x.rolling(window=w, min_periods=w).mean()` over a column that may hold
NaNs: the value at index `t` is the mean of the window `[t+1-w, t]` when the
window is full and every entry in it is non-null (`min_periods` counts
non-null observations), and NaN otherwise. -/
def rollingMean (w : ℕ) (x : ℕ → Option ℚ) (t : ℕ) : Option ℚ :=
  if t + 1 < w then none
  else if ∀ i ∈ Finset.Icc (t + 1 - w) t, (x i).isSome then
    some ((∑ i ∈ Finset.Icc (t + 1 - w) t, (x i).getD 0) / w)
  else none

/-- The imperative Wilder loop of `rsi_wilder`, as a recursion on `k = t - period`:
at `k = 0` (`i == period`) the accumulator is seeded with the rolling mean at
index `period`, which is the simple mean of `g[1..period]`
(the window `[1, period]` holds no NaN); afterwards
`prev = (prev*(period-1) + g[period+k+1]) / period`. -/
def wilderFrom (g : ℕ → ℚ) (period : ℕ) : ℕ → ℚ
  | 0 => (∑ i ∈ Finset.Icc 1 period, g i) / period
  | k + 1 => (wilderFrom g period k * ((period - 1 : ℕ) : ℚ) + g (period + k + 1)) / period

/-- The `avg_gain` column after the loop in `rsi_wilder`: for `t < period` it
keeps the rolling-mean value (which is NaN there, because either the window is
not full or it contains `gain[0] = NaN`); for `period ≤ t < len` the loop has
overwritten it with the Wilder recursion. -/
def avg_gain (closes : List ℚ) (period t : ℕ) : Option ℚ :=
  if closes.length ≤ t then none
  else if t < period then rollingMean period (gainF closes) t
  else some (wilderFrom (fun i => (gainF closes i).getD 0) period (t - period))

/-- The `avg_loss` column after the loop in `rsi_wilder`; same shape as
`avg_gain`. -/
def avg_loss (closes : List ℚ) (period t : ℕ) : Option ℚ :=
  if closes.length ≤ t then none
  else if t < period then rollingMean period (lossF closes) t
  else some (wilderFrom (fun i => (lossF closes i).getD 0) period (t - period))

/-- `rs = avg_gain / avg_loss; 100 - 100/(1+rs)` under IEEE-754 semantics:
a NaN average propagates to NaN; when `avg_loss = 0` the division gives
`+inf` for `avg_gain > 0` (so `100 - 100/(1+inf) = 100`) and `NaN` for
`avg_gain = 0` (`0/0`); otherwise the arithmetic is exact. -/
def rsi_wilder (closes : List ℚ) (period t : ℕ) : Option ℚ :=
  match avg_gain closes period t, avg_loss closes period t with
  | some g, some l =>
      if l = 0 then (if g = 0 then none else some 100)
      else some (100 - 100 / (1 + g / l))
  | _, _ => none

/-! ### prepare_indicators.py : macd_pandas -/

/-- `series.ewm(span=span, adjust=False).mean()`: the exponential moving
average with `alpha = 2/(span+1)`, seeded `EMA[0] = x[0]` and
`EMA[t] = alpha*x[t] + (1-alpha)*EMA[t-1]`. -/
def ewm_mean (span : ℕ) (x : ℕ → ℚ) : ℕ → ℚ
  | 0 => x 0
  | t + 1 => (2 / (span + 1)) * x (t + 1) + (1 - 2 / (span + 1)) * ewm_mean span x t

/-- The close series as a total index map (only indices `< length` are used). -/
def closeAt (closes : List ℚ) (t : ℕ) : ℚ := closes.getD t 0

/-- `macd = ema_fast - ema_slow` with spans 12 and 26. -/
def macd (closes : List ℚ) (t : ℕ) : ℚ :=
  ewm_mean 12 (closeAt closes) t - ewm_mean 26 (closeAt closes) t

/-- `macd_signal = macd.ewm(span=9, adjust=False).mean()`. -/
def macd_signal (closes : List ℚ) (t : ℕ) : ℚ :=
  ewm_mean 9 (macd closes) t

/-- `macd_hist = macd - macd_signal`. -/
def macd_hist (closes : List ℚ) (t : ℕ) : ℚ :=
  macd closes t - macd_signal closes t

/-- The MACD column written into the output frame: one value per input row. -/
def macd_col (closes : List ℚ) : List ℚ :=
  (List.range closes.length).map (macd closes)

/-- The MACD_signal column written into the output frame. -/
def macd_signal_col (closes : List ℚ) : List ℚ :=
  (List.range closes.length).map (macd_signal closes)

/-- The MACD_hist column written into the output frame. -/
def macd_hist_col (closes : List ℚ) : List ℚ :=
  (List.range closes.length).map (macd_hist closes)

/-! ### prepare_indicators.py : process_file rolling columns -/

/-- `df["Close"].rolling(w).mean()`: default `min_periods = w`, so the value
at `t` is the mean of closes over `[t+1-w, t]` once the window is full, NaN
before that. -/
def ma (w : ℕ) (xs : List ℚ) (t : ℕ) : Option ℚ :=
  if t + 1 < w ∨ xs.length ≤ t then none
  else some ((∑ i ∈ Finset.Icc (t + 1 - w) t, xs.getD i 0) / w)

/-- `df["Close"].pct_change()`: NaN at index 0, `x[t]/x[t-1] - 1` afterwards
(a zero previous close, which would give an IEEE infinity, is not hit by any
theorem below: all stated price series have positive closes). -/
def pct_change (xs : List ℚ) (t : ℕ) : Option ℚ :=
  if t = 0 ∨ xs.length ≤ t then none
  else some (xs.getD t 0 / xs.getD (t - 1) 0 - 1)

/-! ### sentiment_analysis.py : TextBlob fallback shim / compute_polarity -/

/-- The fallback positive lexicon `TextBlob._POS`. -/
def textblobPOS : List String :=
  ["good", "great", "positive", "up", "bull", "profit", "gain",
   "beat", "outperform", "strong", "improve", "increase", "surge",
   "rise", "grow", "growth"]

/-- The fallback negative lexicon `TextBlob._NEG`. -/
def textblobNEG : List String :=
  ["bad", "terrible", "negative", "down", "bear", "loss", "drop",
   "miss", "weak", "decline", "decrease", "fall", "plunge"]

/-- `str.lower()` on one ASCII character. -/
def pyLowerChar (c : Char) : Char :=
  if 'A' ≤ c ∧ c ≤ 'Z' then Char.ofNat (c.toNat + 32) else c

/-- `str.lower()` (ASCII fragment; the lexicons and headlines considered are
ASCII). -/
def pyLower (s : String) : String := String.mk (s.toList.map pyLowerChar)

/-- `str.upper()` on one ASCII character. -/
def pyUpperChar (c : Char) : Char :=
  if 'a' ≤ c ∧ c ≤ 'z' then Char.ofNat (c.toNat - 32) else c

/-- `str.upper()` (ASCII fragment), as applied to tickers. -/
def pyUpper (s : String) : String := String.mk (s.toList.map pyUpperChar)

/-- A character matched by the regex class `\w` (ASCII fragment: letters,
digits, underscore; the inputs considered are ASCII). -/
def isWordChar (c : Char) : Bool := c.isAlphanum || c = '_'

/-- `re.findall(r"\w+", text)` on a character list: maximal runs of word
characters; `acc` holds the reversed run currently being read. -/
def findallAux : List Char → List Char → List String
  | [], acc => if acc.isEmpty then [] else [String.mk acc.reverse]
  | c :: rest, acc =>
      if isWordChar c then findallAux rest (c :: acc)
      else if acc.isEmpty then findallAux rest []
      else String.mk acc.reverse :: findallAux rest []

/-- `re.findall(r"\w+", text)`. -/
def findallWords (s : String) : List String := findallAux s.toList []

/-- `TextBlob(text).sentiment.polarity` of the fallback shim applied to the
already-`str`-converted argument: lowercase, tokenize on `\w+`, count tokens
in the positive and negative lexicons, and return
`(pos - neg) / max(1, len(words))` — exactly `0.0` when there are no tokens. -/
def textblob_polarity (text : String) : ℚ :=
  let words := findallWords (pyLower text)
  if words.isEmpty then 0
  else
    (((words.filter (fun w => textblobPOS.contains w)).length : ℚ) -
        ((words.filter (fun w => textblobNEG.contains w)).length : ℚ)) /
      max 1 (words.length : ℚ)

/-- `compute_polarity(text) = TextBlob(str(text)).sentiment.polarity`.
A missing headline cell (pandas NaN) stringifies to `"nan"`; neither `"nan"`
nor `"none"` belongs to a lexicon, so a missing headline scores 0.  The shim
lowercases its input, so `str(...)` composed with `.lower()` is `toLower`
inside `textblob_polarity`. -/
def compute_polarity (text : Option String) : ℚ :=
  textblob_polarity (match text with | none => "nan" | some s => s)

/-! ### sentiment_analysis.py : aggregate_daily_sentiment -/

/-- An input news row: `date` after `pd.to_datetime(..., errors='coerce')`
(`none` = NaT, an unparsable date), the raw `stock` column and the
`headline` cell (`none` = missing cell). -/
structure NewsRow where
  rawDate : Option Int
  stock : String
  headline : Option String
deriving DecidableEq

/-- The `(ticker, date_only)` grouping key of a news row: the uppercased
stock with the day-truncated date, or `none` when the date is NaT —
pandas `groupby` drops rows whose key holds a NaN. -/
def newsKey (r : NewsRow) : Option (String × Int) :=
  r.rawDate.map (fun d => (pyUpper r.stock, d))

/-- One output record of the aggregation. -/
structure DailySentiment where
  ticker : String
  date : Int
  avg_sentiment : ℚ
  min_sentiment : ℚ
  max_sentiment : ℚ
  news_count : ℕ
deriving DecidableEq

/-- The aggregation of one `(ticker, day)` group: mean/min/max of the
polarities of all rows in the group, and `news_count=('headline','count')`,
which counts only the non-null headline cells of the group. -/
def aggGroup (k : String × Int) (grp : List NewsRow) : DailySentiment :=
  let pols := grp.map (fun r => compute_polarity r.headline)
  { ticker := k.1, date := k.2,
    avg_sentiment := pols.sum / pols.length,
    min_sentiment := pols.foldr min (pols.headD 0),
    max_sentiment := pols.foldr max (pols.headD 0),
    news_count := (grp.filter (fun r => r.headline.isSome)).length }

/-- `aggregate_daily_sentiment`: group the rows by their `(ticker, day)` key
(rows with an unparsable date have no key and join no group) and reduce each
group with `aggGroup`.  pandas emits groups sorted by key; the spec declares
the output order insignificant, and this embedding emits groups in first-
occurrence order. -/
def aggregate_daily_sentiment (rows : List NewsRow) : List DailySentiment :=
  ((rows.filterMap newsKey).dedup).map
    (fun k => aggGroup k (rows.filter (fun r => decide (newsKey r = some k))))

/-! ### sentiment_analysis.py : prepare_price_df -/

/-- An input price row of `sentiment_analysis.py`: the raw `Date` cell as its
parse result (`none` = unparsable), the raw ticker, the close and the
remaining columns (Open/High/Low/Volume and the indicator columns), which
the script carries through untouched. -/
structure RawPriceRow where
  rawDate : Option Int
  ticker : String
  close : ℚ
  rest : List ℚ
deriving DecidableEq

/-- A price row once `Date` is parsed and `ticker` uppercased. -/
structure ParsedPriceRow where
  ticker : String
  date : Int
  close : ℚ
  rest : List ℚ
deriving DecidableEq

/-- `pd.to_datetime(price_df['Date'])` (default `errors='raise'`) on one row
plus the ticker uppercase: succeeds only on a parsable date. -/
def parsePriceRow (r : RawPriceRow) : Option ParsedPriceRow :=
  r.rawDate.map (fun d => ⟨pyUpper r.ticker, d, r.close, r.rest⟩)

/-- `sort_values(['ticker','Date'])`: stable sort by the (ticker, Date) key. -/
def sortPriceRows (rows : List ParsedPriceRow) : List ParsedPriceRow :=
  rows.mergeSort (fun a b =>
    decide (a.ticker < b.ticker ∨ (a.ticker = b.ticker ∧ a.date ≤ b.date)))

/-- A prepared price row: parsed, sorted frame extended with
`daily_return = groupby('ticker')['Close'].pct_change()`. -/
structure PrepRow where
  ticker : String
  date : Int
  close : ℚ
  rest : List ℚ
  daily_return : Option ℚ
deriving DecidableEq

/-- `groupby('ticker')['Close'].pct_change()`: for each row, the previous row
of the same ticker in frame order gives `close/prev - 1`; the first row of a
ticker has no previous row and gets NaN. -/
def addReturns (rows : List ParsedPriceRow) : List PrepRow :=
  (List.range rows.length).map (fun i =>
    let r := rows.getD i ⟨"", 0, 0, []⟩
    let prev := ((rows.take i).filter (fun q => decide (q.ticker = r.ticker))).getLast?
    ⟨r.ticker, r.date, r.close, r.rest, prev.map (fun q => r.close / q.close - 1)⟩)

/-- `prepare_price_df`: parse dates (an unparsable one raises, modelled as
`none` for the whole call), uppercase tickers, sort by (ticker, Date) and
compute per-ticker daily returns. -/
def prepare_price_df (rows : List RawPriceRow) : Option (List PrepRow) :=
  if rows.all (fun r => r.rawDate.isSome) then
    some (addReturns (sortPriceRows (rows.filterMap parsePriceRow)))
  else none

/-! ### sentiment_analysis.py : merge_and_analyze -/

/-- A row of the merged frame after the two fills
(`avg_sentiment.fillna(0.0)`, `news_count.fillna(0).astype(int)`);
`min_sentiment`/`max_sentiment` are not filled and stay NaN on unmatched
rows. -/
structure MergedRow where
  ticker : String
  date : Int
  close : ℚ
  rest : List ℚ
  daily_return : Option ℚ
  avg_sentiment : ℚ
  min_sentiment : Option ℚ
  max_sentiment : Option ℚ
  news_count : ℕ
deriving DecidableEq

/-- The left-join of one price row against the daily-sentiment table followed
by the fills: with no key match the row survives with `avg_sentiment = 0`,
`news_count = 0`; otherwise one output row per matching sentiment row. -/
def mergeRow (sent : List DailySentiment) (p : PrepRow) : List MergedRow :=
  match sent.filter (fun s => decide (s.ticker = p.ticker ∧ s.date = p.date)) with
  | [] => [⟨p.ticker, p.date, p.close, p.rest, p.daily_return, 0, none, none, 0⟩]
  | ms => ms.map (fun s => ⟨p.ticker, p.date, p.close, p.rest, p.daily_return,
      s.avg_sentiment, some s.min_sentiment, some s.max_sentiment, s.news_count⟩)

/-- `merged = price_df.merge(sentiment_df, on=['ticker','Date'], how='left')`
plus the fills: each price row contributes its joined rows in order. -/
def mergeTables (price : List PrepRow) (sent : List DailySentiment) : List MergedRow :=
  price.flatMap (mergeRow sent)

/-- The merged row a price row maps to when the sentiment key is unique:
filled from the first key match, or the zero-filled default. -/
def enrichRow (sent : List DailySentiment) (p : PrepRow) : MergedRow :=
  match sent.filter (fun s => decide (s.ticker = p.ticker ∧ s.date = p.date)) with
  | [] => ⟨p.ticker, p.date, p.close, p.rest, p.daily_return, 0, none, none, 0⟩
  | s :: _ => ⟨p.ticker, p.date, p.close, p.rest, p.daily_return,
      s.avg_sentiment, some s.min_sentiment, some s.max_sentiment, s.news_count⟩

/-- One scope's correlation report:
`{'pearson_r': …, 'p_value': …, 'n': …}` with `None` as `none`. -/
structure CorrResult where
  pearson_r : Option ℚ
  p_value : Option ℚ
  n : ℕ
deriving DecidableEq

/-- `grp.dropna(subset=['daily_return'])`. -/
def definedReturnRows (rows : List MergedRow) : List MergedRow :=
  rows.filter (fun r => r.daily_return.isSome)

/-- The distinct tickers of the merged frame (the `groupby('ticker')` keys;
pandas iterates them sorted, this embedding in first-occurrence order — the
per-ticker results form a dict, so the order carries no meaning). -/
def merged_tickers (rows : List MergedRow) : List String :=
  (rows.map (fun r => r.ticker)).dedup

/-- The per-ticker loop of `merge_and_analyze`.  `scipy.stats.pearsonr` is an
external collaborator; the analysis is parameterized over it (`pear xs ys`
returns the pair `(r, p)`), mirroring the source's treatment of optional
libraries as strategy providers. -/
def per_ticker_corr (pear : List ℚ → List ℚ → ℚ × ℚ) (merged : List MergedRow) :
    List (String × CorrResult) :=
  (merged_tickers merged).map (fun t =>
    let tmp := definedReturnRows (merged.filter (fun r => decide (r.ticker = t)))
    if 10 ≤ tmp.length then
      (t, ⟨some (pear (tmp.map (fun r => r.avg_sentiment))
                   (tmp.map (fun r => r.daily_return.getD 0))).1,
           some (pear (tmp.map (fun r => r.avg_sentiment))
                   (tmp.map (fun r => r.daily_return.getD 0))).2,
           tmp.length⟩)
    else (t, ⟨none, none, tmp.length⟩))

/-- The global (pooled) correlation of `merge_and_analyze`: the source
returns the bare pair `(global_r, global_p)` — no sample count. -/
def global_corr (pear : List ℚ → List ℚ → ℚ × ℚ) (merged : List MergedRow) :
    Option ℚ × Option ℚ :=
  let g := definedReturnRows merged
  if 10 ≤ g.length then
    (some (pear (g.map (fun r => r.avg_sentiment))
             (g.map (fun r => r.daily_return.getD 0))).1,
     some (pear (g.map (fun r => r.avg_sentiment))
             (g.map (fun r => r.daily_return.getD 0))).2)
  else (none, none)

/-- `merge_and_analyze`: the merged frame, the per-ticker correlation dict
and the global pair. -/
def merge_and_analyze (pear : List ℚ → List ℚ → ℚ × ℚ)
    (price : List PrepRow) (sent : List DailySentiment) :
    List MergedRow × List (String × CorrResult) × (Option ℚ × Option ℚ) :=
  (mergeTables price sent, per_ticker_corr pear (mergeTables price sent),
   global_corr pear (mergeTables price sent))

/-! ### Concrete series used to instantiate the universally quantified
theorems below -/

/-- A 16-day close series alternating 1, 2, 1, 2, …: it has both gains and
losses, so both Wilder averages are nonzero once seeded. -/
def exC2closes : List ℚ := [1, 2, 1, 2, 1, 2, 1, 2, 1, 2, 1, 2, 1, 2, 1, 2]

/-- The 30-day price series of the spec's end-to-end example: the close
price starts at `c0` and increases by exactly 1 every day. -/
def series30 (c0 : ℚ) : List ℚ :=
  (List.range 30).map (fun t : ℕ => (c0 + (t : ℚ)))

/-- A single news row whose date parses but whose headline cell is missing
(a pandas NaN). -/
def exC6news : List NewsRow := [⟨some 0, "a", none⟩]

/-- Two news rows for the same (ticker, day), both with present headlines. -/
def exC6good : List NewsRow :=
  [⟨some 0, "a", some "strong gain"⟩, ⟨some 0, "a", some "bad loss"⟩]

/-- News rows: one with an unparsable date (NaT), one parsable. -/
def exC9news : List NewsRow :=
  [⟨none, "b", some "profit up"⟩, ⟨some 1, "b", some "down day"⟩]

/-- A price row set whose dates all parse. -/
def exC9good : List RawPriceRow := [⟨some 5, "a", 3, [1, 2]⟩]

/-- A price row set containing an unparsable date. -/
def exC9bad : List RawPriceRow := [⟨none, "a", 5, []⟩]

/-- A stand-in for the external `scipy.stats.pearsonr` strategy, used to
instantiate the analysis at concrete inputs (the gating result does not
depend on the strategy's values). -/
def pear0 : List ℚ → List ℚ → ℚ × ℚ := fun _ _ => (0, 0)

/-- Prepared price rows, ticker "A": 3 defined daily returns out of 4 rows. -/
def exC3priceA : List PrepRow :=
  [⟨"A", 0, 10, [], none⟩, ⟨"A", 1, 10, [], some 1⟩, ⟨"A", 2, 10, [], some 1⟩,
   ⟨"A", 3, 10, [], some 1⟩]

/-- Prepared price rows, ticker "A": 5 defined daily returns out of 6 rows. -/
def exC3priceB : List PrepRow :=
  [⟨"A", 0, 10, [], none⟩, ⟨"A", 1, 10, [], some 1⟩, ⟨"A", 2, 10, [], some 1⟩,
   ⟨"A", 3, 10, [], some 1⟩, ⟨"A", 4, 10, [], some 1⟩, ⟨"A", 5, 10, [], some 1⟩]

/-- Prepared price rows, ticker "A": 10 defined daily returns out of 11 rows,
enough to pass the gate. -/
def exC3priceC : List PrepRow :=
  [⟨"A", 0, 10, [], none⟩, ⟨"A", 1, 10, [], some 1⟩, ⟨"A", 2, 10, [], some 1⟩,
   ⟨"A", 3, 10, [], some 1⟩, ⟨"A", 4, 10, [], some 1⟩, ⟨"A", 5, 10, [], some 1⟩,
   ⟨"A", 6, 10, [], some 1⟩, ⟨"A", 7, 10, [], some 1⟩, ⟨"A", 8, 10, [], some 1⟩,
   ⟨"A", 9, 10, [], some 1⟩, ⟨"A", 10, 10, [], some 1⟩]

/-- A sentiment table whose single key ("B", 5) matches no "A" price row. -/
def exC4sent : List DailySentiment := [⟨"B", 5, 1, 1, 1, 2⟩]

/-- A prepared price row with ticker "A" and a defined return. -/
def exC4p : PrepRow := ⟨"A", 5, 20, [], some 5⟩

/-- Two prepared price rows for ticker "A". -/
def exC10price : List PrepRow := [⟨"A", 0, 1, [], none⟩, ⟨"A", 1, 2, [], some 1⟩]

/-- A one-record sentiment table (keys trivially unique). -/
def exC10sent : List DailySentiment := [⟨"A", 1, 1, 1, 1, 3⟩]

/-! ### Sanity lemmas on the RSI embedding -/

theorem avg_gain_none_of_lt (closes : List ℚ) (period t : ℕ) (h0 : 0 < period)
    (ht : t < period) : avg_gain closes period t = none := by
  unfold avg_gain
  by_cases hlen : closes.length ≤ t
  · simp [hlen]
  · simp only [hlen, if_false, ht, if_true]
    unfold rollingMean
    by_cases hw : t + 1 < period
    · simp [hw]
    · have htp : t = period - 1 := by omega
      have hmem : 0 ∈ Finset.Icc (t + 1 - period) t := by
        simp [Finset.mem_Icc]; omega
      have h0g : (gainF closes 0).isSome = false := by
        simp [gainF, seriesDiff]
      simp only [hw, if_false]
      rw [if_neg]
      intro hall
      have := hall 0 hmem
      rw [h0g] at this
      exact Bool.noConfusion this

theorem avg_loss_none_of_lt (closes : List ℚ) (period t : ℕ)
    (ht : t < period) : avg_loss closes period t = none := by
  unfold avg_loss
  by_cases hlen : closes.length ≤ t
  · simp [hlen]
  · simp only [hlen, if_false, ht, if_true]
    unfold rollingMean
    by_cases hw : t + 1 < period
    · simp [hw]
    · have hmem : 0 ∈ Finset.Icc (t + 1 - period) t := by
        simp [Finset.mem_Icc]; omega
      have h0g : (lossF closes 0).isSome = false := by
        simp [lossF, seriesDiff]
      simp only [hw, if_false]
      rw [if_neg]
      intro hall
      have := hall 0 hmem
      rw [h0g] at this
      exact Bool.noConfusion this

theorem rsi_none_of_lt (closes : List ℚ) (period t : ℕ) (h0 : 0 < period)
    (ht : t < period) : rsi_wilder closes period t = none := by
  unfold rsi_wilder
  rw [avg_gain_none_of_lt closes period t h0 ht]

theorem gainD_pos_of_mono (closes : List ℚ)
    (hmono : ∀ i, i + 1 < closes.length → closes.getD i 0 < closes.getD (i + 1) 0)
    (i : ℕ) (h1 : 1 ≤ i) (hlen : i < closes.length) :
    0 < (gainF closes i).getD 0 := by
  have hne : ¬ (i = 0 ∨ closes.length ≤ i) := by omega
  have hd : closes.getD (i - 1) 0 < closes.getD i 0 := by
    have := hmono (i - 1) (by omega)
    have hi : i - 1 + 1 = i := by omega
    rwa [hi] at this
  simp only [gainF, seriesDiff, hne, if_false, Option.map_some, Option.getD_some]
  have : 0 < closes.getD i 0 - closes.getD (i - 1) 0 := by linarith
  exact lt_max_of_lt_left this

theorem lossD_zero_of_mono (closes : List ℚ)
    (hmono : ∀ i, i + 1 < closes.length → closes.getD i 0 < closes.getD (i + 1) 0)
    (i : ℕ) (h1 : 1 ≤ i) (hlen : i < closes.length) :
    (lossF closes i).getD 0 = 0 := by
  have hne : ¬ (i = 0 ∨ closes.length ≤ i) := by omega
  have hd : closes.getD (i - 1) 0 < closes.getD i 0 := by
    have := hmono (i - 1) (by omega)
    have hi : i - 1 + 1 = i := by omega
    rwa [hi] at this
  simp only [lossF, seriesDiff, hne, if_false, Option.map_some, Option.getD_some]
  have : -(closes.getD i 0 - closes.getD (i - 1) 0) ≤ 0 := by linarith
  exact max_eq_right this

theorem wilder_gain_pos_of_mono (closes : List ℚ) (period : ℕ) (hp : 0 < period)
    (hmono : ∀ i, i + 1 < closes.length → closes.getD i 0 < closes.getD (i + 1) 0) :
    ∀ k, period + k < closes.length →
      0 < wilderFrom (fun i => (gainF closes i).getD 0) period k := by
  intro k
  induction k with
  | zero =>
      intro hlen
      unfold wilderFrom
      apply div_pos
      · apply Finset.sum_pos
        · intro i hi
          rw [Finset.mem_Icc] at hi
          exact gainD_pos_of_mono closes hmono i hi.1 (by omega)
        · exact ⟨1, by rw [Finset.mem_Icc]; omega⟩
      · exact_mod_cast hp
  | succ k ih =>
      intro hlen
      unfold wilderFrom
      apply div_pos
      · have h1 : 0 < wilderFrom (fun i => (gainF closes i).getD 0) period k :=
          ih (by omega)
        have h2 : 0 < (gainF closes (period + k + 1)).getD 0 :=
          gainD_pos_of_mono closes hmono (period + k + 1) (by omega) (by omega)
        have h3 : (0 : ℚ) ≤ ((period - 1 : ℕ) : ℚ) := by positivity
        nlinarith
      · exact_mod_cast hp

theorem wilder_loss_zero_of_mono (closes : List ℚ) (period : ℕ) (hp : 0 < period)
    (hmono : ∀ i, i + 1 < closes.length → closes.getD i 0 < closes.getD (i + 1) 0) :
    ∀ k, period + k < closes.length →
      wilderFrom (fun i => (lossF closes i).getD 0) period k = 0 := by
  intro k
  induction k with
  | zero =>
      intro hlen
      unfold wilderFrom
      rw [Finset.sum_congr rfl (fun i hi => ?_), Finset.sum_const, smul_zero, zero_div]
      rw [Finset.mem_Icc] at hi
      exact lossD_zero_of_mono closes hmono i hi.1 (by omega)
  | succ k ih =>
      intro hlen
      unfold wilderFrom
      rw [ih (by omega), lossD_zero_of_mono closes hmono (period + k + 1) (by omega) (by omega)]
      ring

theorem rsi_eq_100_of_mono (closes : List ℚ) (period t : ℕ) (hp : 0 < period)
    (hmono : ∀ i, i + 1 < closes.length → closes.getD i 0 < closes.getD (i + 1) 0)
    (ht : period ≤ t) (hlen : t < closes.length) :
    rsi_wilder closes period t = some 100 := by
  have hnl : ¬ closes.length ≤ t := by omega
  have hnp : ¬ t < period := by omega
  have hk : period + (t - period) = t := by omega
  have hg : avg_gain closes period t =
      some (wilderFrom (fun i => (gainF closes i).getD 0) period (t - period)) := by
    unfold avg_gain; simp [hnl, hnp]
  have hl : avg_loss closes period t =
      some (wilderFrom (fun i => (lossF closes i).getD 0) period (t - period)) := by
    unfold avg_loss; simp [hnl, hnp]
  have hgpos : 0 < wilderFrom (fun i => (gainF closes i).getD 0) period (t - period) :=
    wilder_gain_pos_of_mono closes period hp hmono (t - period) (by omega)
  have hlzero : wilderFrom (fun i => (lossF closes i).getD 0) period (t - period) = 0 :=
    wilder_loss_zero_of_mono closes period hp hmono (t - period) (by omega)
  unfold rsi_wilder
  rw [hg, hl, hlzero]
  simp [ne_of_gt hgpos]

/-- Claim C1: for every price series whose close values are strictly
monotonically increasing (every delta is a gain, no losses), `rsi_wilder`
yields RSI14 = 100 at every index where RSI14 is defined — in particular
every index `14 ≤ t < length` is defined with value 100, the all-gain
(`avg_loss = 0`) boundary producing 100 rather than an unbounded or
undefined result. -/
theorem C1_rsi_allgain_100 (closes : List ℚ)
    (hmono : ∀ i, i + 1 < closes.length → closes.getD i 0 < closes.getD (i + 1) 0) :
    (∀ t x, rsi_wilder closes 14 t = some x → x = 100) ∧
    (∀ t, 14 ≤ t → t < closes.length → rsi_wilder closes 14 t = some 100) := by
  constructor
  · intro t x hx
    by_cases ht : t < 14
    · rw [rsi_none_of_lt closes 14 t (by norm_num) ht] at hx
      exact absurd hx (Option.noConfusion)
    · by_cases hlen : t < closes.length
      · rw [rsi_eq_100_of_mono closes 14 t (by norm_num) hmono (by omega) hlen] at hx
        exact (Option.some_injective ℚ hx).symm
      · have : rsi_wilder closes 14 t = none := by
          unfold rsi_wilder avg_gain
          simp [show closes.length ≤ t by omega]
        rw [this] at hx
        exact absurd hx (Option.noConfusion)
  · intro t ht hlen
    exact rsi_eq_100_of_mono closes 14 t (by norm_num) hmono ht hlen

theorem getD_map_range (f : ℕ → ℚ) (n i : ℕ) (h : i < n) :
    ((List.range n).map f).getD i 0 = f i := by
  rw [List.getD_eq_getElem?_getD, List.getElem?_map, List.getElem?_range h]
  rfl

theorem length_map_range (f : ℕ → ℚ) (n : ℕ) :
    ((List.range n).map f).length = n := by
  rw [List.length_map, List.length_range]

/-- Witness for C1 at the concrete strictly increasing series
`[1, 2, …, 15]`: RSI14 is 100 at index 14. -/
theorem C1_witness :
    rsi_wilder ((List.range 15).map (fun i : ℕ => ((i : ℚ) + 1))) 14 14 = some 100 := by
  apply (C1_rsi_allgain_100 ((List.range 15).map (fun i : ℕ => ((i : ℚ) + 1))) ?_).2 14
    (by norm_num) (by rw [length_map_range]; norm_num)
  intro i hi
  rw [length_map_range] at hi
  rw [getD_map_range _ 15 i (by omega), getD_map_range _ 15 (i + 1) (by omega)]
  push_cast
  linarith

theorem gainD_eq (closes : List ℚ) (i : ℕ) (h1 : 1 ≤ i) (hlen : i < closes.length) :
    (gainF closes i).getD 0 = max (closes.getD i 0 - closes.getD (i - 1) 0) 0 := by
  have hne : ¬ (i = 0 ∨ closes.length ≤ i) := by omega
  simp [gainF, seriesDiff, hne]

theorem lossD_eq (closes : List ℚ) (i : ℕ) (h1 : 1 ≤ i) (hlen : i < closes.length) :
    (lossF closes i).getD 0 = max (closes.getD (i - 1) 0 - closes.getD i 0) 0 := by
  have hne : ¬ (i = 0 ∨ closes.length ≤ i) := by omega
  simp [lossF, seriesDiff, hne, neg_sub]

theorem cast13 : ((14 - 1 : ℕ) : ℚ) = 13 := by norm_num

theorem wilderFrom_succ (g : ℕ → ℚ) (period k : ℕ) :
    wilderFrom g period (k + 1) =
      (wilderFrom g period k * ((period - 1 : ℕ) : ℚ) + g (period + k + 1)) / period := rfl

/-- Claim C2: `rsi_wilder` computes RSI14 by Wilder's method — undefined for
`t < 14`; at `t = 14` the averages are the simple arithmetic means of
`gain[1..14]` and `loss[1..14]`; for `t > 14` they follow
`avg[t] = (avg[t-1]*13 + new[t]) / 14`; and wherever both averages are
defined with `avg_loss ≠ 0`, `RSI[t] = 100 - 100/(1 + avg_gain/avg_loss)`. -/
theorem C2_rsi_wilder_method (closes : List ℚ) :
    (∀ t, t < 14 → rsi_wilder closes 14 t = none) ∧
    (14 < closes.length →
      avg_gain closes 14 14 =
        some ((∑ i ∈ Finset.Icc 1 14, max (closes.getD i 0 - closes.getD (i - 1) 0) 0) / 14) ∧
      avg_loss closes 14 14 =
        some ((∑ i ∈ Finset.Icc 1 14, max (closes.getD (i - 1) 0 - closes.getD i 0) 0) / 14)) ∧
    (∀ t, 14 < t → t < closes.length →
      avg_gain closes 14 t = (avg_gain closes 14 (t - 1)).map
        (fun a => (a * 13 + max (closes.getD t 0 - closes.getD (t - 1) 0) 0) / 14) ∧
      avg_loss closes 14 t = (avg_loss closes 14 (t - 1)).map
        (fun a => (a * 13 + max (closes.getD (t - 1) 0 - closes.getD t 0) 0) / 14)) ∧
    (∀ t g l, avg_gain closes 14 t = some g → avg_loss closes 14 t = some l → l ≠ 0 →
      rsi_wilder closes 14 t = some (100 - 100 / (1 + g / l))) := by
  refine ⟨fun t ht => rsi_none_of_lt closes 14 t (by norm_num) ht, ?_, ?_, ?_⟩
  · intro hlen
    have hnl : ¬ closes.length ≤ 14 := by omega
    have hnp : ¬ (14 : ℕ) < 14 := by omega
    constructor
    · unfold avg_gain
      simp only [hnl, if_false, hnp]
      unfold wilderFrom
      exact congrArg some (congrArg (· / (14 : ℚ))
        (Finset.sum_congr rfl (fun i hi => by
          rw [Finset.mem_Icc] at hi
          exact gainD_eq closes i hi.1 (by omega))))
    · unfold avg_loss
      simp only [hnl, if_false, hnp]
      unfold wilderFrom
      exact congrArg some (congrArg (· / (14 : ℚ))
        (Finset.sum_congr rfl (fun i hi => by
          rw [Finset.mem_Icc] at hi
          exact lossD_eq closes i hi.1 (by omega))))
  · intro t ht hlen
    have hnl : ¬ closes.length ≤ t := by omega
    have hnp : ¬ t < 14 := by omega
    have hnl1 : ¬ closes.length ≤ t - 1 := by omega
    have hnp1 : ¬ t - 1 < 14 := by omega
    have hsplit : t - 14 = (t - 1 - 14) + 1 := by omega
    have hidx : 14 + (t - 1 - 14) + 1 = t := by omega
    constructor
    · have e1 : avg_gain closes 14 t =
          some (wilderFrom (fun i => (gainF closes i).getD 0) 14 (t - 1 - 14 + 1)) := by
        unfold avg_gain
        simp only [hnl, if_false, hnp]
        rw [hsplit]
      have e2 : avg_gain closes 14 (t - 1) =
          some (wilderFrom (fun i => (gainF closes i).getD 0) 14 (t - 1 - 14)) := by
        unfold avg_gain
        simp only [hnl1, if_false, hnp1]
      rw [e1, e2, Option.map_some', wilderFrom_succ, hidx, cast13,
        gainD_eq closes t (by omega) hlen]
      norm_cast
    · have e1 : avg_loss closes 14 t =
          some (wilderFrom (fun i => (lossF closes i).getD 0) 14 (t - 1 - 14 + 1)) := by
        unfold avg_loss
        simp only [hnl, if_false, hnp]
        rw [hsplit]
      have e2 : avg_loss closes 14 (t - 1) =
          some (wilderFrom (fun i => (lossF closes i).getD 0) 14 (t - 1 - 14)) := by
        unfold avg_loss
        simp only [hnl1, if_false, hnp1]
      rw [e1, e2, Option.map_some', wilderFrom_succ, hidx, cast13,
        lossD_eq closes t (by omega) hlen]
      norm_cast
  · intro t g l hg hl hlne
    unfold rsi_wilder
    rw [hg, hl]
    simp [hlne]

/-- Witness for C2 at the alternating series `exC2closes` (length 16):
RSI undefined at 3, seed equation at 14, recurrence at 15 and the RSI
formula at 14, where both averages equal 1/2. -/
theorem C2_witness :
    rsi_wilder exC2closes 14 3 = none ∧
    avg_gain exC2closes 14 14 =
      some ((∑ i ∈ Finset.Icc 1 14,
        max (exC2closes.getD i 0 - exC2closes.getD (i - 1) 0) 0) / 14) ∧
    avg_gain exC2closes 14 15 = (avg_gain exC2closes 14 14).map
      (fun a => (a * 13 + max (exC2closes.getD 15 0 - exC2closes.getD 14 0) 0) / 14) ∧
    rsi_wilder exC2closes 14 14 = some (100 - 100 / (1 + (1 / 2 : ℚ) / (1 / 2))) := by
  have h14 : (14 : ℕ) < exC2closes.length := by norm_num [exC2closes]
  have hseedg := ((C2_rsi_wilder_method exC2closes).2.1 h14).1
  have hseedl := ((C2_rsi_wilder_method exC2closes).2.1 h14).2
  have hsumg : (∑ i ∈ Finset.Icc (1 : ℕ) 14,
      max (exC2closes.getD i 0 - exC2closes.getD (i - 1) 0) 0) / 14 = (1 / 2 : ℚ) := by
    norm_num [Finset.sum_Icc_succ_top, exC2closes, List.getD_cons_succ,
      List.getD_cons_zero, max_def]
  have hsuml : (∑ i ∈ Finset.Icc (1 : ℕ) 14,
      max (exC2closes.getD (i - 1) 0 - exC2closes.getD i 0) 0) / 14 = (1 / 2 : ℚ) := by
    norm_num [Finset.sum_Icc_succ_top, exC2closes, List.getD_cons_succ,
      List.getD_cons_zero, max_def]
  refine ⟨(C2_rsi_wilder_method exC2closes).1 3 (by norm_num),
          hseedg,
          ((C2_rsi_wilder_method exC2closes).2.2.1 15 (by norm_num)
            (by norm_num [exC2closes])).1,
          (C2_rsi_wilder_method exC2closes).2.2.2 14 (1 / 2) (1 / 2)
            (by rw [hseedg, hsumg]) (by rw [hseedl, hsuml]) (by norm_num)⟩

/-- Claim C7: MACD, MACD_signal and MACD_hist are defined from index 0 onward
(one value per input row), each EMA follows
`EMA[t] = alpha*x[t] + (1-alpha)*EMA[t-1]` with `alpha = 2/(span+1)` seeded
`EMA[0] = x[0]` (spans 12 and 26 for MACD, 9 for the signal line), and
`MACD_hist[t] = MACD[t] - MACD_signal[t]` holds exactly for every t. -/
theorem C7_macd_recurrences (closes : List ℚ) :
    ((macd_col closes).length = closes.length ∧
     (macd_signal_col closes).length = closes.length ∧
     (macd_hist_col closes).length = closes.length) ∧
    (∀ span : ℕ, ∀ x : ℕ → ℚ, ewm_mean span x 0 = x 0) ∧
    (∀ span : ℕ, ∀ x : ℕ → ℚ, ∀ t,
      ewm_mean span x (t + 1) =
        (2 / ((span : ℚ) + 1)) * x (t + 1) + (1 - 2 / ((span : ℚ) + 1)) * ewm_mean span x t) ∧
    (∀ t, macd closes t = ewm_mean 12 (closeAt closes) t - ewm_mean 26 (closeAt closes) t) ∧
    (∀ t, macd_signal closes t = ewm_mean 9 (macd closes) t) ∧
    (∀ t, macd_hist closes t = macd closes t - macd_signal closes t) ∧
    (∀ i, i < closes.length →
      (macd_hist_col closes).getD i 0 =
        (macd_col closes).getD i 0 - (macd_signal_col closes).getD i 0) := by
  refine ⟨⟨length_map_range _ _, length_map_range _ _, length_map_range _ _⟩,
          fun span x => rfl, fun span x t => rfl,
          fun t => rfl, fun t => rfl, fun t => rfl, ?_⟩
  intro i hi
  unfold macd_hist_col macd_col macd_signal_col
  rw [getD_map_range _ _ i hi, getD_map_range _ _ i hi, getD_map_range _ _ i hi]
  rfl

/-- Witness for C7 at the two-element series `[1, 2]`: the histogram identity
at index 0 and the EMA seed for span 12. -/
theorem C7_witness :
    (macd_hist_col [(1 : ℚ), 2]).getD 0 0 =
      (macd_col [(1 : ℚ), 2]).getD 0 0 - (macd_signal_col [(1 : ℚ), 2]).getD 0 0 ∧
    ewm_mean 12 (closeAt [(1 : ℚ), 2]) 0 = closeAt [(1 : ℚ), 2] 0 :=
  ⟨(C7_macd_recurrences [(1 : ℚ), 2]).2.2.2.2.2.2 0 (by norm_num),
   (C7_macd_recurrences [(1 : ℚ), 2]).2.1 12 (closeAt [(1 : ℚ), 2])⟩

theorem series30_length (c0 : ℚ) : (series30 c0).length = 30 :=
  length_map_range _ _

theorem series30_getD (c0 : ℚ) (i : ℕ) (hi : i < 30) :
    (series30 c0).getD i 0 = c0 + (i : ℚ) :=
  getD_map_range _ _ i hi

theorem series30_mono (c0 : ℚ) :
    ∀ i, i + 1 < (series30 c0).length →
      (series30 c0).getD i 0 < (series30 c0).getD (i + 1) 0 := by
  intro i hi
  rw [series30_length] at hi
  rw [series30_getD c0 i (by omega), series30_getD c0 (i + 1) (by omega)]
  push_cast
  linarith

/-- Counterexample to claim C8 as stated: for the 30-day series increasing by
1 each day (started at 1), the claim asserts RSI14 = 100 at every index ≥ 13,
but at index 13 the code leaves RSI14 undefined — the rolling seed window
`[0, 13]` still contains the NaN of `diff()` at index 0, so `avg_gain[13]`
(and hence RSI14[13]) is NaN. -/
theorem C8_counterexample :
    rsi_wilder (series30 1) 14 13 = none ∧
    rsi_wilder (series30 1) 14 13 ≠ some 100 := by
  have h := rsi_none_of_lt (series30 1) 14 13 (by norm_num) (by norm_num)
  exact ⟨h, by rw [h]; exact fun hc => Option.noConfusion hc⟩

/-- Claim C8 (amended): for a 30-day price series whose close increases by
exactly 1 every day (positive start), MA20 is undefined before index 19 and at
index 19 equals the mean of closes[0..19]; RSI14 = 100 for every index ≥ 14
and is undefined at index 13 (not 100 from index 13 as the claim stated); and
`return[t] = 1/close[t-1]` for every 1 ≤ t < 30, undefined at t = 0. -/
theorem C8_pipeline_example (c0 : ℚ) (hc : 0 < c0) :
    (∀ t, t < 19 → ma 20 (series30 c0) t = none) ∧
    ma 20 (series30 c0) 19 =
      some ((∑ i ∈ Finset.Icc (0 : ℕ) 19, (series30 c0).getD i 0) / 20) ∧
    (∀ t, 14 ≤ t → t < 30 → rsi_wilder (series30 c0) 14 t = some 100) ∧
    rsi_wilder (series30 c0) 14 13 = none ∧
    pct_change (series30 c0) 0 = none ∧
    (∀ t, 1 ≤ t → t < 30 →
      pct_change (series30 c0) t = some (1 / (series30 c0).getD (t - 1) 0)) := by
  refine ⟨?_, ?_, ?_, ?_, ?_, ?_⟩
  · intro t ht
    unfold ma
    rw [if_pos (Or.inl (by omega))]
  · unfold ma
    rw [if_neg (by rw [series30_length]; omega)]
    norm_num
  · intro t ht hlen
    exact rsi_eq_100_of_mono (series30 c0) 14 t (by norm_num) (series30_mono c0) ht
      (by rw [series30_length]; omega)
  · exact rsi_none_of_lt (series30 c0) 14 13 (by norm_num) (by norm_num)
  · unfold pct_change
    rw [if_pos (Or.inl rfl)]
  · intro t h1t hlt
    unfold pct_change
    rw [if_neg (by rw [series30_length]; omega)]
    rw [series30_getD c0 t hlt, series30_getD c0 (t - 1) (by omega)]
    have e : ((t - 1 : ℕ) : ℚ) = (t : ℚ) - 1 := by
      rw [Nat.cast_sub h1t]; norm_num
    rw [e]
    have ht1 : (1 : ℚ) ≤ (t : ℚ) := by exact_mod_cast h1t
    have hd : c0 + ((t : ℚ) - 1) ≠ 0 := ne_of_gt (by linarith)
    rw [Option.some_inj]
    field_simp
    try ring

/-- Witness for C8 (amended) at `c0 = 1`: MA20 at index 19, RSI14 at index 14
and the return at index 1. -/
theorem C8_witness :
    ma 20 (series30 1) 19 =
      some ((∑ i ∈ Finset.Icc (0 : ℕ) 19, (series30 1).getD i 0) / 20) ∧
    rsi_wilder (series30 1) 14 14 = some 100 ∧
    pct_change (series30 1) 1 = some (1 / (series30 1).getD 0 0) :=
  ⟨(C8_pipeline_example 1 one_pos).2.1,
   (C8_pipeline_example 1 one_pos).2.2.1 14 le_rfl (by norm_num),
   (C8_pipeline_example 1 one_pos).2.2.2.2.2 1 le_rfl (by norm_num)⟩


/-! ### Sentiment scorer (C5) -/

theorem textblob_polarity_formula (text : String) :
    textblob_polarity text =
      ((((findallWords (pyLower text)).filter (fun w => textblobPOS.contains w)).length : ℚ) -
          (((findallWords (pyLower text)).filter (fun w => textblobNEG.contains w)).length : ℚ)) /
        max 1 ((findallWords (pyLower text)).length : ℚ) := by
  simp only [textblob_polarity]
  by_cases he : (findallWords (pyLower text)).isEmpty
  · rw [if_pos he]
    rw [List.isEmpty_iff] at he
    rw [he]
    norm_num
  · rw [if_neg he]

theorem textblob_polarity_bounds (text : String) :
    -1 ≤ textblob_polarity text ∧ textblob_polarity text ≤ 1 := by
  rw [textblob_polarity_formula]
  have hp : (((findallWords (pyLower text)).filter
      (fun w => textblobPOS.contains w)).length : ℚ) ≤
      ((findallWords (pyLower text)).length : ℚ) := by
    exact_mod_cast List.length_filter_le _ _
  have hn : (((findallWords (pyLower text)).filter
      (fun w => textblobNEG.contains w)).length : ℚ) ≤
      ((findallWords (pyLower text)).length : ℚ) := by
    exact_mod_cast List.length_filter_le _ _
  have hp0 : (0 : ℚ) ≤ (((findallWords (pyLower text)).filter
      (fun w => textblobPOS.contains w)).length : ℚ) := by positivity
  have hn0 : (0 : ℚ) ≤ (((findallWords (pyLower text)).filter
      (fun w => textblobNEG.contains w)).length : ℚ) := by positivity
  have hm : ((findallWords (pyLower text)).length : ℚ) ≤
      max 1 ((findallWords (pyLower text)).length : ℚ) := le_max_right _ _
  have hm1 : (0 : ℚ) < max 1 ((findallWords (pyLower text)).length : ℚ) :=
    lt_of_lt_of_le one_pos (le_max_left _ _)
  constructor
  · rw [le_div_iff₀ hm1]
    linarith
  · rw [div_le_one hm1]
    linarith

theorem compute_polarity_none : compute_polarity none = 0 := by
  have hw : findallWords (pyLower "nan") = ["nan"] := by decide
  have hp : ["nan"].filter (fun w => textblobPOS.contains w) = [] := by decide
  have hn : ["nan"].filter (fun w => textblobNEG.contains w) = [] := by decide
  show textblob_polarity "nan" = 0
  rw [textblob_polarity_formula, hw, hp, hn]
  norm_num

/-- Claim C5: the fallback sentiment scorer is a pure function (hence
deterministic) returning a value in [-1, 1]; a null headline (pandas NaN,
which `str(...)` turns into "nan", a token in neither lexicon) and empty text
score exactly 0; and the score always equals
`(pos_count - neg_count) / max(1, token_count)` over the case-insensitive
`\w+` tokens classified against the fixed lexicons (for tokenless text both
sides are 0). -/
theorem C5_fallback_scorer (text : String) :
    (-1 ≤ textblob_polarity text ∧ textblob_polarity text ≤ 1) ∧
    compute_polarity none = 0 ∧
    textblob_polarity "" = 0 ∧
    textblob_polarity text =
      ((((findallWords (pyLower text)).filter (fun w => textblobPOS.contains w)).length : ℚ) -
          (((findallWords (pyLower text)).filter (fun w => textblobNEG.contains w)).length : ℚ)) /
        max 1 ((findallWords (pyLower text)).length : ℚ) :=
  ⟨textblob_polarity_bounds text, compute_polarity_none, by decide,
   textblob_polarity_formula text⟩

/-! ### Daily sentiment aggregation (C6) -/

/-- Counterexample to claim C6 as stated: the claim asserts that no output
record has `news_count = 0`.  But `news_count=('headline','count')` counts
only non-null headline cells, while the group itself exists as soon as the
(ticker, day) key does: a single news row with a parsable date and a missing
(NaN) headline produces the output record ("A", day 0) with `news_count = 0`
— present as a zero row, not absent. -/
theorem C6_counterexample :
    (aggregate_daily_sentiment exC6news).map (fun r => (r.ticker, r.date, r.news_count)) =
      [("A", 0, 0)] := by decide

/-- Claim C6 (amended): `aggregate_daily_sentiment` outputs at most one
record per (ticker, day); and provided every input row has a present
(non-null) headline, every output record has `news_count ≥ 1` — a group of
rows whose headlines are all missing would instead surface as a record with
`news_count = 0` (see the counterexample). -/
theorem C6_aggregate_unique_nonzero (rows : List NewsRow) :
    ((aggregate_daily_sentiment rows).Pairwise
      (fun a b => (a.ticker, a.date) ≠ (b.ticker, b.date))) ∧
    ((∀ r ∈ rows, r.headline.isSome) →
      ∀ rec ∈ aggregate_daily_sentiment rows, 1 ≤ rec.news_count) := by
  constructor
  · unfold aggregate_daily_sentiment
    rw [List.pairwise_map]
    refine List.Pairwise.imp ?_ (List.nodup_dedup _)
    intro a b hab h
    apply hab
    rwa [show (aggGroup a (rows.filter (fun r => decide (newsKey r = some a)))).ticker = a.1
          from rfl,
        show (aggGroup a (rows.filter (fun r => decide (newsKey r = some a)))).date = a.2
          from rfl,
        show (aggGroup b (rows.filter (fun r => decide (newsKey r = some b)))).ticker = b.1
          from rfl,
        show (aggGroup b (rows.filter (fun r => decide (newsKey r = some b)))).date = b.2
          from rfl,
        Prod.mk.eta, Prod.mk.eta] at h
  · intro hall rec hrec
    unfold aggregate_daily_sentiment at hrec
    rw [List.mem_map] at hrec
    obtain ⟨k, hk, hrk⟩ := hrec
    rw [List.mem_dedup, List.mem_filterMap] at hk
    obtain ⟨r, hr, hkey⟩ := hk
    subst hrk
    have hrg : r ∈ rows.filter (fun q => decide (newsKey q = some k)) :=
      List.mem_filter.mpr ⟨hr, by simp [hkey]⟩
    have hmem : r ∈ (rows.filter (fun q => decide (newsKey q = some k))).filter
        (fun q => q.headline.isSome) :=
      List.mem_filter.mpr ⟨hrg, hall r hr⟩
    show 1 ≤ ((rows.filter (fun q => decide (newsKey q = some k))).filter
        (fun q => q.headline.isSome)).length
    exact List.length_pos.mpr (List.ne_nil_of_mem hmem)

/-- Witness for C6 (amended) on two same-day rows with present headlines. -/
theorem C6_witness :
    ((aggregate_daily_sentiment exC6good).Pairwise
      (fun a b => (a.ticker, a.date) ≠ (b.ticker, b.date))) ∧
    (∀ rec ∈ aggregate_daily_sentiment exC6good, 1 ≤ rec.news_count) :=
  ⟨(C6_aggregate_unique_nonzero exC6good).1,
   (C6_aggregate_unique_nonzero exC6good).2 (by decide)⟩

/-! ### Unparsable dates (C9) -/

/-- Counterexample to claim C9 as stated: the claim asserts that a price row
with an unparsable date gets an undefined date and is excluded, rather than
aborting the run.  The news path does coerce (`errors='coerce'`), but
`prepare_price_df` calls `pd.to_datetime(price_df['Date'])` with the default
`errors='raise'`: one unparsable price date raises and the run aborts
(modelled as the frame-level `none`). -/
theorem C9_counterexample : prepare_price_df exC9bad = none := by decide

/-- Claim C9 (amended): a news row whose date cannot be parsed gets a NaT
date and is dropped from the aggregation (its key is NaN, and grouping drops
NaN keys), so it never reaches the correlation; removing such rows up front
changes nothing.  A price row whose date cannot be parsed, however, aborts
`prepare_price_df` (`errors='raise'`); only an all-parsable price input
yields a prepared frame. -/
theorem C9_unparsable_dates :
    (∀ rows : List NewsRow,
      aggregate_daily_sentiment rows =
        aggregate_daily_sentiment (rows.filter (fun r => r.rawDate.isSome))) ∧
    (∀ rows : List RawPriceRow, (∀ r ∈ rows, r.rawDate.isSome) →
      ∃ out, prepare_price_df rows = some out) ∧
    (∀ rows : List RawPriceRow, (∃ r ∈ rows, r.rawDate = none) →
      prepare_price_df rows = none) := by
  refine ⟨fun rows => ?_, fun rows hall => ?_, fun rows hbad => ?_⟩
  · have h1 : rows.filterMap newsKey =
        (rows.filter (fun r => r.rawDate.isSome)).filterMap newsKey := by
      induction rows with
      | nil => rfl
      | cons a rs ih =>
          cases ha : a.rawDate with
          | none =>
              have hk : newsKey a = none := by simp [newsKey, ha]
              simp [List.filterMap_cons, List.filter_cons, ha, hk, ih]
          | some d =>
              have hk : newsKey a = some (pyUpper a.stock, d) := by simp [newsKey, ha]
              simp [List.filterMap_cons, List.filter_cons, ha, hk, ih]
    have h2 : ∀ k : String × Int,
        rows.filter (fun r => decide (newsKey r = some k)) =
          (rows.filter (fun r => r.rawDate.isSome)).filter
            (fun r => decide (newsKey r = some k)) := by
      intro k
      rw [List.filter_filter]
      apply List.filter_congr
      intro r hr
      cases hrd : r.rawDate with
      | none => simp [newsKey, hrd]
      | some d => simp [hrd]
    unfold aggregate_daily_sentiment
    rw [h1]
    refine List.map_congr_left ?_
    intro k hk
    rw [h2 k]
  · unfold prepare_price_df
    rw [if_pos (List.all_eq_true.mpr (fun r hr => hall r hr))]
    exact ⟨_, rfl⟩
  · obtain ⟨r, hr, hnone⟩ := hbad
    unfold prepare_price_df
    rw [if_neg]
    intro hallp
    have := List.all_eq_true.mp hallp r hr
    rw [hnone] at this
    exact Bool.noConfusion this

/-- Witness for C9 (amended): the news identity on a mixed NaT/parsable
input, and a successful preparation on an all-parsable price input. -/
theorem C9_witness :
    (aggregate_daily_sentiment exC9news =
      aggregate_daily_sentiment (exC9news.filter (fun r => r.rawDate.isSome))) ∧
    (∃ out, prepare_price_df exC9good = some out) ∧
    prepare_price_df exC9bad = none :=
  ⟨C9_unparsable_dates.1 exC9news,
   C9_unparsable_dates.2.1 exC9good (by decide),
   C9_unparsable_dates.2.2 exC9bad ⟨⟨none, "a", 5, []⟩, List.mem_singleton.mpr rfl, rfl⟩⟩

/-! ### Left-join fill semantics (C4) -/

/-- Claim C4: a price row whose (ticker, date) matches no DailySentiment
record survives the left-join as exactly one merged row with
`avg_sentiment = 0` and `news_count = 0` after the fills, while its
`daily_return` field is carried through unchanged — a missing price
observation stays visible as `daily_return = none` on that row, distinct
from the zero sentiment fill. -/
theorem C4_unmatched_join_fill (sent : List DailySentiment) (p : PrepRow)
    (hnm : ∀ s ∈ sent, ¬ (s.ticker = p.ticker ∧ s.date = p.date)) :
    mergeRow sent p =
      [⟨p.ticker, p.date, p.close, p.rest, p.daily_return, 0, none, none, 0⟩] ∧
    ∀ price : List PrepRow, p ∈ price →
      (⟨p.ticker, p.date, p.close, p.rest, p.daily_return, 0, none, none, 0⟩ : MergedRow) ∈
        mergeTables price sent := by
  have hfil : sent.filter (fun s => decide (s.ticker = p.ticker ∧ s.date = p.date)) = [] := by
    rw [List.filter_eq_nil_iff]
    intro s hs
    simp [hnm s hs]
  have h1 : mergeRow sent p =
      [⟨p.ticker, p.date, p.close, p.rest, p.daily_return, 0, none, none, 0⟩] := by
    unfold mergeRow
    rw [hfil]
  refine ⟨h1, fun price hp => ?_⟩
  unfold mergeTables
  rw [List.mem_flatMap]
  exact ⟨p, hp, by rw [h1]; exact List.mem_singleton.mpr rfl⟩

/-- Witness for C4 at a price row ("A", 5) against a sentiment table whose
only key is ("B", 5). -/
theorem C4_witness :
    mergeRow exC4sent exC4p =
      [⟨"A", 5, 20, [], some 5, 0, none, none, 0⟩] ∧
    (⟨"A", 5, 20, [], some 5, 0, none, none, 0⟩ : MergedRow) ∈
      mergeTables [exC4p] exC4sent :=
  have h := C4_unmatched_join_fill exC4sent exC4p (by decide)
  ⟨h.1, h.2 [exC4p] (List.mem_singleton.mpr rfl)⟩

/-! ### Merge preserves price rows (C10) -/

/-- Claim C10: when the sentiment table's (ticker, date) keys are pairwise
distinct (which the aggregator guarantees), the merged table is exactly one
row per input price row in order, each preserving the price row's ticker,
date, close, remaining columns and previously computed daily_return, with
only the sentiment columns added. -/
theorem C10_merge_preserves (price : List PrepRow) (sent : List DailySentiment)
    (hu : sent.Pairwise (fun a b => (a.ticker, a.date) ≠ (b.ticker, b.date))) :
    mergeTables price sent = price.map (enrichRow sent) ∧
    (mergeTables price sent).length = price.length ∧
    ∀ p : PrepRow,
      (enrichRow sent p).ticker = p.ticker ∧
      (enrichRow sent p).date = p.date ∧
      (enrichRow sent p).close = p.close ∧
      (enrichRow sent p).rest = p.rest ∧
      (enrichRow sent p).daily_return = p.daily_return := by
  have key : ∀ p : PrepRow, mergeRow sent p = [enrichRow sent p] := by
    intro p
    have hall : ∀ s ∈ sent.filter
        (fun s => decide (s.ticker = p.ticker ∧ s.date = p.date)),
        s.ticker = p.ticker ∧ s.date = p.date := by
      intro s hs
      have := (List.mem_filter.mp hs).2
      simpa using this
    have hpw := hu.sublist (List.filter_sublist
      (p := fun s => decide (s.ticker = p.ticker ∧ s.date = p.date)) sent)
    unfold mergeRow enrichRow
    rcases hfl : sent.filter (fun s => decide (s.ticker = p.ticker ∧ s.date = p.date))
      with _ | ⟨s, rest⟩
    · rw [hfl]
    · rcases rest with _ | ⟨s2, rest2⟩
      · rw [hfl]
        rfl
      · exfalso
        rw [hfl] at hpw
        have hr := (List.pairwise_cons.mp hpw).1 s2 (List.mem_cons_self _ _)
        have hs1 := hall s (by rw [hfl]; exact List.mem_cons_self _ _)
        have hs2 := hall s2 (by rw [hfl]; exact List.mem_cons.mpr (Or.inr (List.mem_cons_self _ _)))
        apply hr
        rw [hs1.1, hs1.2, hs2.1, hs2.2]
  have hmt : mergeTables price sent = price.map (enrichRow sent) := by
    unfold mergeTables
    induction price with
    | nil => rfl
    | cons a rs ih =>
        rw [List.flatMap_cons, key a, ih, List.map_cons]
        rfl
  refine ⟨hmt, by rw [hmt, List.length_map], fun p => ?_⟩
  unfold enrichRow
  rcases hfl : sent.filter (fun s => decide (s.ticker = p.ticker ∧ s.date = p.date))
    with _ | ⟨s, rest⟩
  · rw [hfl]
    exact ⟨rfl, rfl, rfl, rfl, rfl⟩
  · rw [hfl]
    exact ⟨rfl, rfl, rfl, rfl, rfl⟩

/-- Witness for C10 on a two-row price frame and a one-record sentiment
table. -/
theorem C10_witness :
    mergeTables exC10price exC10sent = exC10price.map (enrichRow exC10sent) ∧
    (mergeTables exC10price exC10sent).length = exC10price.length :=
  have h := C10_merge_preserves exC10price exC10sent (by simp [exC10sent])
  ⟨h.1, h.2.1⟩

/-! ### Correlation gating (C3) -/

/-- Counterexample to claim C3 as stated: the claim requires every
correlation scope — each ticker and the global pool — to report the true
sample count n.  The per-ticker dict entries do carry n, but the source
returns the global result as the bare pair `(global_r, global_p)`: two pooled
datasets with 3 and 5 defined returns produce identical global reports, so
the global report cannot carry the true count n. -/
theorem C3_counterexample :
    global_corr pear0 (mergeTables exC3priceA []) =
      global_corr pear0 (mergeTables exC3priceB []) ∧
    (definedReturnRows (mergeTables exC3priceA [])).length = 3 ∧
    (definedReturnRows (mergeTables exC3priceB [])).length = 5 := by
  refine ⟨?_, ?_, ?_⟩ <;> decide

/-- Claim C3 (amended): for every pearsonr strategy and every merged dataset,
each per-ticker result reports the true count n of rows with a defined return
for that ticker, and its pearson_r/p_value are undefined exactly when that
n < 10; when n ≥ 10 they come from a Pearson computation on two paired
samples of size n (never fewer than 10).  The pooled (global) result obeys
the same n ≥ 10 gate on the pooled count, but consists only of the pair
(pearson_r, p_value) — the pooled count itself is not part of the report. -/
theorem C3_correlation_gating (pear : List ℚ → List ℚ → ℚ × ℚ)
    (price : List PrepRow) (sent : List DailySentiment) :
    (∀ t r, (t, r) ∈ per_ticker_corr pear (mergeTables price sent) →
      (r.n = (definedReturnRows ((mergeTables price sent).filter
          (fun m => decide (m.ticker = t)))).length ∧
       (r.pearson_r = none ↔ r.n < 10) ∧
       (r.p_value = none ↔ r.n < 10) ∧
       (10 ≤ r.n → ∃ xs ys : List ℚ, xs.length = r.n ∧ ys.length = r.n ∧
          r.pearson_r = some (pear xs ys).1 ∧ r.p_value = some (pear xs ys).2))) ∧
    ((global_corr pear (mergeTables price sent)).1 = none ↔
      (definedReturnRows (mergeTables price sent)).length < 10) ∧
    ((global_corr pear (mergeTables price sent)).2 = none ↔
      (definedReturnRows (mergeTables price sent)).length < 10) := by
  refine ⟨?_, ?_, ?_⟩
  · intro t r htr
    unfold per_ticker_corr at htr
    rw [List.mem_map] at htr
    obtain ⟨t0, ht0, heq⟩ := htr
    by_cases hL : 10 ≤ (definedReturnRows ((mergeTables price sent).filter
        (fun m => decide (m.ticker = t0)))).length
    · rw [if_pos hL, Prod.mk.injEq] at heq
      obtain ⟨ht, hr⟩ := heq
      subst ht
      subst hr
      refine ⟨rfl, ?_, ?_, ?_⟩
      · simp [Nat.not_lt.mpr hL]
      · simp [Nat.not_lt.mpr hL]
      · intro h10
        exact ⟨_, _, List.length_map _ _, List.length_map _ _, rfl, rfl⟩
    · rw [if_neg hL, Prod.mk.injEq] at heq
      obtain ⟨ht, hr⟩ := heq
      subst ht
      subst hr
      refine ⟨rfl, ?_, ?_, ?_⟩
      · simp [Nat.lt_of_not_le hL]
      · simp [Nat.lt_of_not_le hL]
      · intro h10
        exact absurd h10 hL
  · unfold global_corr
    by_cases hG : 10 ≤ (definedReturnRows (mergeTables price sent)).length
    · rw [if_pos hG]
      simp [Nat.not_lt.mpr hG]
    · rw [if_neg hG]
      simp [Nat.lt_of_not_le hG]
  · unfold global_corr
    by_cases hG : 10 ≤ (definedReturnRows (mergeTables price sent)).length
    · rw [if_pos hG]
      simp [Nat.not_lt.mpr hG]
    · rw [if_neg hG]
      simp [Nat.lt_of_not_le hG]

/-- Witness for C3 (amended): the sub-gate ticker "A" with n = 5 reports
(none, none, 5); a pooled dataset with 10 defined returns yields a defined
global pearson_r. -/
theorem C3_witness :
    ((⟨none, none, 5⟩ : CorrResult).n =
      (definedReturnRows ((mergeTables exC3priceB []).filter
        (fun m => decide (m.ticker = "A")))).length) ∧
    ((⟨none, none, 5⟩ : CorrResult).pearson_r = none ↔
      (⟨none, none, 5⟩ : CorrResult).n < 10) ∧
    (global_corr pear0 (mergeTables exC3priceC [])).1 ≠ none := by
  have h := (C3_correlation_gating pear0 exC3priceB []).1 "A" ⟨none, none, 5⟩ (by decide)
  have hg := (C3_correlation_gating pear0 exC3priceC []).2.1
  have hlen : (definedReturnRows (mergeTables exC3priceC [])).length = 10 := by decide
  refine ⟨h.1, h.2.1, fun hnone => ?_⟩
  rw [hg, hlen] at hnone
  exact absurd hnone (by norm_num)
